import Mathlib

/-!
Shallow embedding of the `logistics` pallet (`src/pallets/logistics/src/lib.rs`).

The pallet keeps two storage items:
  * `Shipments`: a map from `u64` shipment id to a `Shipment` record;
  * `DeliveredLog`: a `BoundedVec<u64, ConstU32<100>>` of ids awaiting pruning.

Three dispatchables (`begin_transit`, `shipment_received`, `shipment_delivered`)
mutate the map, and the `on_initialize` hook drains the log and removes the
listed entries.  `try_mutate` writes the mutated record back only when the
closure returns `Ok`, so an error (in particular `DeliveredLogOverflow` raised
by `DeliveredLog::try_append` inside the closure) leaves both storage items
unchanged; a failing dispatch leaves the whole state as it was.  Here machine
integers (`u64`, `u32`, block numbers) are modelled as `Nat` — none of the code
performs arithmetic on them, they are only stored and compared — and the
opaque `T::AccountId` is modelled as `Nat` as well.
-/

namespace Logistics

/-- `Coords { lat: u32, lng: u32 }` from the source. -/
structure Coords where
  lat : Nat
  lng : Nat
deriving Repr, DecidableEq

/-- The `Shipment<T>` storage record, field for field. -/
structure Shipment where
  id : Nat
  shipped_by : Nat
  received_by : Nat
  received_at : Coords
  received_on : Nat
  destination : Nat
  delivered : Bool
deriving Repr, DecidableEq

/-- `Shipment::new`: `received_on` is stamped with the current block number
(read from `frame_system` in the source, passed in explicitly here) and
`delivered` starts out `false`. -/
def Shipment.new (shipment_id : Nat) (shipped_by : Nat) (received_by : Nat)
    (received_at : Coords) (destination : Nat) (block_number : Nat) : Shipment :=
  { id := shipment_id, shipped_by := shipped_by, received_by := received_by,
    received_at := received_at, received_on := block_number,
    destination := destination, delivered := false }

/-- The `Error<T>` enum of the pallet. -/
inductive Error where
  | ShipmentDoesNotExist
  | DuplicateShipment
  | ShipmentNotInTransit
  | DeliveredLogOverflow
deriving Repr, DecidableEq

/-- The two storage items of the pallet: the `Shipments` counted map and the
`DeliveredLog` bounded vector (its 100-entry bound is enforced by
`try_append`, below). -/
structure State where
  shipments : Nat → Option Shipment
  delivered_log : List Nat

/-- Genesis storage: no shipments, empty delivered log. -/
def emptyState : State :=
  { shipments := fun _ => none, delivered_log := [] }

/-- `Shipments::insert`. -/
def mapInsert (m : Nat → Option Shipment) (k : Nat) (s : Shipment) :
    Nat → Option Shipment :=
  fun k' => if k' = k then some s else m k'

/-- `Shipments::remove`. -/
def mapRemove (m : Nat → Option Shipment) (k : Nat) : Nat → Option Shipment :=
  fun k' => if k' = k then none else m k'

/-- `BoundedVec::<u64, ConstU32<100>>::try_append`: appends when the vector
still has room for one more element, and fails otherwise. -/
def try_append (log : List Nat) (x : Nat) : Option (List Nat) :=
  if log.length < 100 then some (log ++ [x]) else none

/-- `begin_transit`.  `received_by` is the authenticated signer resolved by
`ensure_signed`; `block_number` is the host's current block number. -/
def begin_transit (st : State) (block_number : Nat) (received_by : Nat)
    (shipment_id : Nat) (shipped_by : Nat) (received_at : Coords)
    (destination : Nat) : Except Error State :=
  if (st.shipments shipment_id).isSome then
    Except.error Error.DuplicateShipment
  else
    Except.ok
      { st with
        shipments :=
          mapInsert st.shipments shipment_id
            (Shipment.new shipment_id shipped_by received_by received_at
              destination block_number) }

/-- `shipment_received`.  The `try_mutate` closure updates `received_by`,
`received_at` and `received_on` of an in-transit shipment; on error nothing
is written back. -/
def shipment_received (st : State) (block_number : Nat) (received_by : Nat)
    (shipment_id : Nat) (received_at : Coords) : Except Error State :=
  match st.shipments shipment_id with
  | some s =>
    if s.delivered then
      Except.error Error.ShipmentNotInTransit
    else
      Except.ok
        { st with
          shipments :=
            mapInsert st.shipments shipment_id
              { s with received_by := received_by, received_at := received_at,
                       received_on := block_number } }
  | none => Except.error Error.ShipmentDoesNotExist

/-- `shipment_delivered`.  Inside the `try_mutate` closure the record is
updated and `delivered` set, then `DeliveredLog::try_append` runs; if the
append overflows the closure returns `Err`, so `try_mutate` discards the
record update and the log is untouched — the whole call is all-or-nothing. -/
def shipment_delivered (st : State) (block_number : Nat) (received_by : Nat)
    (shipment_id : Nat) (received_at : Coords) : Except Error State :=
  match st.shipments shipment_id with
  | some s =>
    if s.delivered then
      Except.error Error.ShipmentNotInTransit
    else
      match try_append st.delivered_log shipment_id with
      | some log2 =>
        Except.ok
          { shipments :=
              mapInsert st.shipments shipment_id
                { s with received_by := received_by, received_at := received_at,
                         received_on := block_number, delivered := true },
            delivered_log := log2 }
      | none => Except.error Error.DeliveredLogOverflow
  | none => Except.error Error.ShipmentDoesNotExist

/-- The `on_initialize` hook (the pruner, `drain_and_prune` in the spec):
removes every id listed in the delivered log from the shipments map, then
kills the log (its `ValueQuery` default is the empty vector). -/
def drain_and_prune (st : State) : State :=
  { shipments := st.delivered_log.foldl mapRemove st.shipments,
    delivered_log := [] }

/-- Substrate applies a dispatchable transactionally: a failing extrinsic
leaves storage unchanged.  `dispatch st r` is the storage after the call. -/
def dispatch (st : State) (r : Except Error State) : State :=
  match r with
  | Except.ok st2 => st2
  | Except.error _ => st

/-- Whether a dispatch result is a success. -/
def isOk (r : Except Error State) : Bool :=
  match r with
  | Except.ok _ => true
  | Except.error _ => false

/-! ### The step relation of the pallet

A step is a successful dispatch of one of the three extrinsics (a failing
dispatch leaves storage untouched, so it contributes nothing to
reachability) or one run of the `on_initialize` prune hook. -/

def Step (st st' : State) : Prop :=
  (∃ n rb id sb c d, begin_transit st n rb id sb c d = Except.ok st') ∨
  (∃ n rb id c, shipment_received st n rb id c = Except.ok st') ∨
  (∃ n rb id c, shipment_delivered st n rb id c = Except.ok st') ∨
  st' = drain_and_prune st

/-- States reachable from genesis storage. -/
def Reachable (st : State) : Prop :=
  Relation.ReflTransGen Step emptyState st

/-- The host's block number is monotonically non-decreasing; `TStep st n st' n'`
is a step taken at block `n'`, observed from a state stamped at block `n ≤ n'`. -/
def TStep (st : State) (n : Nat) (st' : State) (n' : Nat) : Prop :=
  n ≤ n' ∧
  ((∃ rb id sb c d, begin_transit st n' rb id sb c d = Except.ok st') ∨
   (∃ rb id c, shipment_received st n' rb id c = Except.ok st') ∨
   (∃ rb id c, shipment_delivered st n' rb id c = Except.ok st') ∨
   st' = drain_and_prune st)

/-- `TStep` on pairs, for the reflexive-transitive closure. -/
def TRel (p q : State × Nat) : Prop := TStep p.1 p.2 q.1 q.2

/-- Timed reachability: a run from genesis under a non-decreasing block
number, ending in state `st` at block `n`. -/
def TReachable (st : State) (n : Nat) : Prop :=
  ∃ n0 : Nat, Relation.ReflTransGen TRel (emptyState, n0) (st, n)

/-- Cross-store invariant: every delivered ledger entry is queued in the log. -/
def DelivInLog (st : State) : Prop :=
  ∀ id s, st.shipments id = some s → s.delivered = true →
    id ∈ st.delivered_log

/-- Every stored `received_on` stamp is at most the current block number. -/
def StampLe (st : State) (n : Nat) : Prop :=
  ∀ id s, st.shipments id = some s → s.received_on ≤ n

/-- The `received_on` stamp currently stored under `id` (0 when absent). -/
def stampOf (st : State) (id : Nat) : Nat :=
  match st.shipments id with
  | some s => s.received_on
  | none => 0


/-! ### Concrete storage fixtures

A small concrete run used to instantiate the theorems: shipment 5 created at
block 1 by signer 2 (sender 3), shipment 6 created at block 1 by signer 2
(sender 4), shipment 5 re-received at block 2 by signer 7, delivered at
block 3 by signer 9, and a state whose delivered log is at capacity. -/

def coordsA : Coords := ⟨10, 20⟩

def coordsB : Coords := ⟨11, 21⟩

def ship1 : Shipment := ⟨5, 3, 2, coordsA, 1, 99, false⟩

def st1 : State :=
  { shipments := mapInsert emptyState.shipments 5 ship1, delivered_log := [] }

def ship2 : Shipment := ⟨5, 3, 7, coordsB, 2, 99, false⟩

def st2 : State :=
  { shipments := mapInsert st1.shipments 5 ship2, delivered_log := [] }

def ship6 : Shipment := ⟨6, 4, 2, coordsA, 1, 88, false⟩

def st1b : State :=
  { shipments := mapInsert st1.shipments 6 ship6, delivered_log := [] }

def ship5d : Shipment := ⟨5, 3, 9, coordsB, 3, 99, true⟩

def st3 : State :=
  { shipments := mapInsert st1b.shipments 5 ship5d, delivered_log := [5] }

def ship6b : Shipment := ⟨6, 4, 11, coordsB, 4, 88, false⟩

def st4 : State :=
  { shipments := mapInsert st3.shipments 6 ship6b, delivered_log := [5] }

def stFull : State :=
  { shipments := mapInsert emptyState.shipments 5 ship1,
    delivered_log := List.replicate 100 7 }

/-! ### Inversion lemmas for successful dispatches -/

lemma begin_transit_ok {st : State} {n rb id sb : Nat} {c : Coords} {d : Nat}
    {st' : State} (h : begin_transit st n rb id sb c d = Except.ok st') :
    st.shipments id = none ∧
      st' = { st with
              shipments :=
                mapInsert st.shipments id (Shipment.new id sb rb c d n) } := by
  unfold begin_transit at h
  cases hm : st.shipments id with
  | some s => rw [hm] at h; simp at h
  | none =>
    rw [hm] at h
    simp only [Option.isSome_none, Bool.false_eq_true, if_false,
      Except.ok.injEq] at h
    exact ⟨rfl, h.symm⟩

lemma shipment_received_ok {st : State} {n rb id : Nat} {c : Coords}
    {st' : State} (h : shipment_received st n rb id c = Except.ok st') :
    ∃ s, st.shipments id = some s ∧ s.delivered = false ∧
      st' = { st with
              shipments :=
                mapInsert st.shipments id
                  { s with received_by := rb, received_at := c,
                           received_on := n } } := by
  unfold shipment_received at h
  cases hm : st.shipments id with
  | none => rw [hm] at h; simp at h
  | some s =>
    rw [hm] at h
    by_cases hd : s.delivered
    · simp [hd] at h
    · have hdf : s.delivered = false := by simpa using hd
      simp only [hd, if_false, Except.ok.injEq, Bool.false_eq_true] at h
      refine ⟨s, rfl, hdf, ?_⟩
      rw [hdf]
      exact h.symm

lemma shipment_delivered_ok {st : State} {n rb id : Nat} {c : Coords}
    {st' : State} (h : shipment_delivered st n rb id c = Except.ok st') :
    ∃ s, st.shipments id = some s ∧ s.delivered = false ∧
      st.delivered_log.length < 100 ∧
      st' = { shipments :=
                mapInsert st.shipments id
                  { s with received_by := rb, received_at := c,
                           received_on := n, delivered := true },
              delivered_log := st.delivered_log ++ [id] } := by
  unfold shipment_delivered at h
  cases hm : st.shipments id with
  | none => rw [hm] at h; simp at h
  | some s =>
    rw [hm] at h
    by_cases hd : s.delivered
    · simp [hd] at h
    · by_cases hlen : st.delivered_log.length < 100
      · simp only [hd, if_false, try_append, hlen, if_true,
          Except.ok.injEq, Bool.false_eq_true] at h
        exact ⟨s, rfl, by simpa using hd, hlen, h.symm⟩
      · simp [hd, try_append, hlen] at h

/-- Pointwise description of the shipments map after a prune tick. -/
lemma foldl_mapRemove_apply (l : List Nat) (m : Nat → Option Shipment)
    (k : Nat) :
    l.foldl mapRemove m k = if k ∈ l then none else m k := by
  induction l generalizing m with
  | nil => simp
  | cons i l ih =>
    simp only [List.foldl_cons, ih, List.mem_cons]
    by_cases h1 : k = i <;> by_cases h2 : k ∈ l <;>
      simp [h1, h2, mapRemove]

lemma drain_and_prune_shipments (st : State) (k : Nat) :
    (drain_and_prune st).shipments k =
      if k ∈ st.delivered_log then none else st.shipments k :=
  foldl_mapRemove_apply st.delivered_log st.shipments k

/-! ### Reachability invariants -/

/-- The delivered log stays within its 100-entry bound. -/
lemma step_log_le {st st' : State} (h : Step st st')
    (hle : st.delivered_log.length ≤ 100) :
    st'.delivered_log.length ≤ 100 := by
  rcases h with ⟨n, rb, id, sb, c, d, h⟩ | ⟨n, rb, id, c, h⟩ |
    ⟨n, rb, id, c, h⟩ | rfl
  · obtain ⟨-, rfl⟩ := begin_transit_ok h
    simpa using hle
  · obtain ⟨s, -, -, rfl⟩ := shipment_received_ok h
    simpa using hle
  · obtain ⟨s, -, -, hlen, rfl⟩ := shipment_delivered_ok h
    simp only [List.length_append, List.length_singleton]
    omega
  · simp [drain_and_prune]

lemma reachable_log_le {st : State} (h : Reachable st) :
    st.delivered_log.length ≤ 100 := by
  induction h with
  | refl => simp [emptyState]
  | tail _ hstep ih => exact step_log_le hstep ih


lemma step_delivInLog {st st' : State} (h : Step st st')
    (hinv : DelivInLog st) : DelivInLog st' := by
  rcases h with ⟨n, rb, id, sb, c, d, h⟩ | ⟨n, rb, id, c, h⟩ |
    ⟨n, rb, id, c, h⟩ | rfl
  · obtain ⟨-, rfl⟩ := begin_transit_ok h
    intro j t hj ht
    simp only [mapInsert] at hj
    by_cases hji : j = id
    · rw [if_pos hji] at hj
      rw [← Option.some.injEq _ t |>.mp hj] at ht
      simp [Shipment.new] at ht
    · rw [if_neg hji] at hj
      exact hinv j t hj ht
  · obtain ⟨s, hs, hd, rfl⟩ := shipment_received_ok h
    intro j t hj ht
    simp only [mapInsert] at hj
    by_cases hji : j = id
    · rw [if_pos hji] at hj
      rw [← Option.some.injEq _ t |>.mp hj] at ht
      simp [hd] at ht
    · rw [if_neg hji] at hj
      exact hinv j t hj ht
  · obtain ⟨s, hs, hd, hlen, rfl⟩ := shipment_delivered_ok h
    intro j t hj ht
    simp only [mapInsert] at hj
    by_cases hji : j = id
    · simp [hji]
    · rw [if_neg hji] at hj
      simp only [List.mem_append]
      exact Or.inl (hinv j t hj ht)
  · intro j t hj ht
    rw [drain_and_prune_shipments] at hj
    by_cases hjin : j ∈ st.delivered_log
    · rw [if_pos hjin] at hj; cases hj
    · rw [if_neg hjin] at hj
      exact absurd (hinv j t hj ht) hjin

lemma reachable_delivInLog {st : State} (h : Reachable st) : DelivInLog st := by
  induction h with
  | refl => intro j t hj ht; simp [emptyState] at hj
  | tail _ hstep ih => exact step_delivInLog hstep ih


lemma tstep_stampLe {st : State} {n : Nat} {st' : State} {n' : Nat}
    (h : TStep st n st' n') (hb : StampLe st n) : StampLe st' n' := by
  obtain ⟨hn, h⟩ := h
  rcases h with ⟨rb, id, sb, c, d, h⟩ | ⟨rb, id, c, h⟩ | ⟨rb, id, c, h⟩ | rfl
  · obtain ⟨-, rfl⟩ := begin_transit_ok h
    intro j t hj
    simp only [mapInsert] at hj
    by_cases hji : j = id
    · rw [if_pos hji] at hj
      rw [← Option.some.injEq _ t |>.mp hj]
      simp [Shipment.new]
    · rw [if_neg hji] at hj
      exact le_trans (hb j t hj) hn
  · obtain ⟨s, hs, hd, rfl⟩ := shipment_received_ok h
    intro j t hj
    simp only [mapInsert] at hj
    by_cases hji : j = id
    · rw [if_pos hji] at hj
      rw [← Option.some.injEq _ t |>.mp hj]
    · rw [if_neg hji] at hj
      exact le_trans (hb j t hj) hn
  · obtain ⟨s, hs, hd, hlen, rfl⟩ := shipment_delivered_ok h
    intro j t hj
    simp only [mapInsert] at hj
    by_cases hji : j = id
    · rw [if_pos hji] at hj
      rw [← Option.some.injEq _ t |>.mp hj]
    · rw [if_neg hji] at hj
      exact le_trans (hb j t hj) hn
  · intro j t hj
    rw [drain_and_prune_shipments] at hj
    by_cases hjin : j ∈ st.delivered_log
    · rw [if_pos hjin] at hj; cases hj
    · rw [if_neg hjin] at hj
      exact le_trans (hb j t hj) hn

lemma trel_stampLe (n0 : Nat) (p : State × Nat)
    (h : Relation.ReflTransGen TRel (emptyState, n0) p) : StampLe p.1 p.2 := by
  induction h with
  | refl => intro j t hj; simp [emptyState] at hj
  | tail _ hstep ih => exact tstep_stampLe hstep ih

lemma treachable_stampLe {st : State} {n : Nat} (h : TReachable st n) :
    StampLe st n := by
  obtain ⟨n0, h⟩ := h
  exact trel_stampLe n0 (st, n) h

/-! ### The claims -/

/-- Claim C1: when the Delivery Log holds exactly 100 entries and the targeted
shipment exists with `delivered = false`, `shipment_delivered` fails with
`DeliveredLogOverflow`, and afterwards the shipment record — so in particular
its `delivered`, `received_by`, `received_at` and `received_on` fields — and
the Delivery Log are exactly as before the call. -/
theorem c1_overflow_atomic (st : State) (n rb id : Nat) (c : Coords)
    (s : Shipment) (hlog : st.delivered_log.length = 100)
    (hs : st.shipments id = some s) (hnd : s.delivered = false) :
    shipment_delivered st n rb id c = Except.error Error.DeliveredLogOverflow ∧
    (dispatch st (shipment_delivered st n rb id c)).shipments id = some s ∧
    (dispatch st (shipment_delivered st n rb id c)).delivered_log =
      st.delivered_log := by
  have herr : shipment_delivered st n rb id c =
      Except.error Error.DeliveredLogOverflow := by
    simp [shipment_delivered, hs, hnd, try_append, hlog]
  exact ⟨herr, by simp [dispatch, herr, hs], by simp [dispatch, herr]⟩

theorem c1_overflow_atomic_witness :
    shipment_delivered stFull 9 8 5 coordsB =
      Except.error Error.DeliveredLogOverflow ∧
    (dispatch stFull (shipment_delivered stFull 9 8 5 coordsB)).shipments 5 =
      some ship1 ∧
    (dispatch stFull (shipment_delivered stFull 9 8 5 coordsB)).delivered_log =
      stFull.delivered_log :=
  c1_overflow_atomic stFull 9 8 5 coordsB ship1 (by decide) rfl rfl

/-- Claim C2: `delivered` is monotonic over the step relation — no step turns
an existing shipment's `delivered` flag from `true` back to `false` — and a
shipment whose `delivered` flag is `true` rejects both `shipment_received`
and `shipment_delivered` with `ShipmentNotInTransit`. -/
theorem c2_delivered_monotonic (st st' : State) (id n rb : Nat) (c : Coords)
    (s s' : Shipment) (hstep : Step st st')
    (hs : st.shipments id = some s) (hs' : st'.shipments id = some s')
    (hd : s.delivered = true) :
    s'.delivered = true ∧
    shipment_received st n rb id c =
      Except.error Error.ShipmentNotInTransit ∧
    shipment_delivered st n rb id c =
      Except.error Error.ShipmentNotInTransit := by
  refine ⟨?_, by simp [shipment_received, hs, hd],
    by simp [shipment_delivered, hs, hd]⟩
  rcases hstep with ⟨m, rb2, j, sb, c2, d, h⟩ | ⟨m, rb2, j, c2, h⟩ |
    ⟨m, rb2, j, c2, h⟩ | rfl
  · obtain ⟨hnone, rfl⟩ := begin_transit_ok h
    simp only [mapInsert] at hs'
    by_cases hij : id = j
    · rw [hij] at hs; rw [hs] at hnone; cases hnone
    · rw [if_neg hij] at hs'
      injection hs.symm.trans hs' with he
      rw [← he]; exact hd
  · obtain ⟨t, ht, htd, rfl⟩ := shipment_received_ok h
    simp only [mapInsert] at hs'
    by_cases hij : id = j
    · rw [hij] at hs
      injection ht.symm.trans hs with he
      rw [← he] at hd
      rw [htd] at hd; cases hd
    · rw [if_neg hij] at hs'
      injection hs.symm.trans hs' with he
      rw [← he]; exact hd
  · obtain ⟨t, ht, htd, hlen, rfl⟩ := shipment_delivered_ok h
    simp only [mapInsert] at hs'
    by_cases hij : id = j
    · rw [if_pos hij] at hs'
      injection hs' with he
      rw [← he]
    · rw [if_neg hij] at hs'
      injection hs.symm.trans hs' with he
      rw [← he]; exact hd
  · rw [drain_and_prune_shipments] at hs'
    by_cases hin : id ∈ st.delivered_log
    · rw [if_pos hin] at hs'; cases hs'
    · rw [if_neg hin] at hs'
      injection hs.symm.trans hs' with he
      rw [← he]; exact hd

theorem c2_delivered_monotonic_witness :
    ship5d.delivered = true ∧
    shipment_received st3 4 11 5 coordsB =
      Except.error Error.ShipmentNotInTransit ∧
    shipment_delivered st3 4 11 5 coordsB =
      Except.error Error.ShipmentNotInTransit :=
  c2_delivered_monotonic st3 st4 5 4 11 coordsB ship5d ship5d
    (Or.inr (Or.inl ⟨4, 11, 6, coordsB, rfl⟩)) rfl rfl rfl

/-- Claim C3: if the id already exists, `begin_transit` fails with
`DuplicateShipment` and changes nothing; otherwise it succeeds and the ledger
afterwards maps the id to a record with `delivered = false`, `received_by`
the caller, `received_on` the current block number, and the given
`shipped_by`, `received_at` and `destination`; the log and every other
ledger key are untouched. -/
theorem c3_begin_transit (st : State) (n rb id sb : Nat) (c : Coords)
    (d : Nat) (k : Nat) :
    ((st.shipments id).isSome = true →
      begin_transit st n rb id sb c d =
        Except.error Error.DuplicateShipment ∧
      dispatch st (begin_transit st n rb id sb c d) = st) ∧
    (st.shipments id = none →
      isOk (begin_transit st n rb id sb c d) = true ∧
      (dispatch st (begin_transit st n rb id sb c d)).shipments id =
        some { id := id, shipped_by := sb, received_by := rb,
               received_at := c, received_on := n, destination := d,
               delivered := false } ∧
      (dispatch st (begin_transit st n rb id sb c d)).delivered_log =
        st.delivered_log ∧
      (k ≠ id →
        (dispatch st (begin_transit st n rb id sb c d)).shipments k =
          st.shipments k)) := by
  constructor
  · intro hsome
    have herr : begin_transit st n rb id sb c d =
        Except.error Error.DuplicateShipment := by
      unfold begin_transit; rw [hsome]; simp
    exact ⟨herr, by simp [dispatch, herr]⟩
  · intro hnone
    have hok : begin_transit st n rb id sb c d =
        Except.ok
          { st with
            shipments :=
              mapInsert st.shipments id (Shipment.new id sb rb c d n) } := by
      unfold begin_transit; rw [hnone]; simp
    refine ⟨by simp [isOk, hok], ?_, by simp [dispatch, hok], ?_⟩
    · simp [dispatch, hok, mapInsert, Shipment.new]
    · intro hk
      simp [dispatch, hok, mapInsert, hk]

theorem c3_begin_transit_witness :
    (begin_transit st1 4 8 5 6 coordsB 77 =
      Except.error Error.DuplicateShipment) ∧
    isOk (begin_transit emptyState 1 2 5 3 coordsA 99) = true ∧
    (dispatch emptyState
        (begin_transit emptyState 1 2 5 3 coordsA 99)).shipments 5 =
      some { id := 5, shipped_by := 3, received_by := 2,
             received_at := coordsA, received_on := 1, destination := 99,
             delivered := false } ∧
    (dispatch emptyState
        (begin_transit emptyState 1 2 5 3 coordsA 99)).shipments 8 =
      emptyState.shipments 8 :=
  ⟨((c3_begin_transit st1 4 8 5 6 coordsB 77 8).1 rfl).1,
   ((c3_begin_transit emptyState 1 2 5 3 coordsA 99 8).2 rfl).1,
   ((c3_begin_transit emptyState 1 2 5 3 coordsA 99 8).2 rfl).2.1,
   ((c3_begin_transit emptyState 1 2 5 3 coordsA 99 8).2 rfl).2.2.2
     (by decide)⟩

/-- Claim C4: after one run of the prune hook every identifier that was in
the Delivery Log is absent from the ledger and the log is empty; removing an
absent key is a no-op (and no error arises from it). -/
theorem c4_prune_completeness (st : State) (id : Nat)
    (m : Nat → Option Shipment) (k : Nat)
    (hid : id ∈ st.delivered_log) (hm : m k = none) :
    (drain_and_prune st).shipments id = none ∧
    (drain_and_prune st).delivered_log = [] ∧
    mapRemove m k = m := by
  refine ⟨?_, rfl, ?_⟩
  · rw [drain_and_prune_shipments, if_pos hid]
  · funext k'
    by_cases hk : k' = k
    · rw [hk]; simp [mapRemove, hm]
    · simp [mapRemove, hk]

theorem c4_prune_completeness_witness :
    (drain_and_prune st3).shipments 5 = none ∧
    (drain_and_prune st3).delivered_log = [] ∧
    mapRemove emptyState.shipments 0 = emptyState.shipments :=
  c4_prune_completeness st3 5 emptyState.shipments 0 (by decide) rfl

/-- Claim C5: a successful `shipment_received` updates only `received_by`,
`received_at` and `received_on`, leaving `delivered`, `id`, `shipped_by`,
`destination`, every other ledger key and the log unchanged; both failures
(`ShipmentDoesNotExist` for an absent id, `ShipmentNotInTransit` for a
delivered one) leave the state untouched. -/
theorem c5_received_frame (st : State) (n rb id : Nat) (c : Coords)
    (s : Shipment) (k k2 : Nat) (hs : st.shipments id = some s) :
    (s.delivered = false →
      shipment_received st n rb id c =
        Except.ok
          { st with
            shipments :=
              mapInsert st.shipments id
                { s with received_by := rb, received_at := c,
                         received_on := n } } ∧
      (dispatch st (shipment_received st n rb id c)).shipments id =
        some { id := s.id, shipped_by := s.shipped_by, received_by := rb,
               received_at := c, received_on := n,
               destination := s.destination, delivered := false } ∧
      (k ≠ id →
        (dispatch st (shipment_received st n rb id c)).shipments k =
          st.shipments k) ∧
      (dispatch st (shipment_received st n rb id c)).delivered_log =
        st.delivered_log) ∧
    (s.delivered = true →
      shipment_received st n rb id c =
        Except.error Error.ShipmentNotInTransit ∧
      dispatch st (shipment_received st n rb id c) = st) ∧
    (st.shipments k2 = none →
      shipment_received st n rb k2 c =
        Except.error Error.ShipmentDoesNotExist ∧
      dispatch st (shipment_received st n rb k2 c) = st) := by
  refine ⟨?_, ?_, ?_⟩
  · intro hdf
    have hok : shipment_received st n rb id c =
        Except.ok
          { st with
            shipments :=
              mapInsert st.shipments id
                { s with received_by := rb, received_at := c,
                         received_on := n } } := by
      simp [shipment_received, hs, hdf]
    refine ⟨hok, ?_, ?_, by simp [dispatch, hok]⟩
    · simp [dispatch, hok, mapInsert, hdf]
    · intro hk
      simp [dispatch, hok, mapInsert, hk]
  · intro hdt
    have herr : shipment_received st n rb id c =
        Except.error Error.ShipmentNotInTransit := by
      simp [shipment_received, hs, hdt]
    exact ⟨herr, by simp [dispatch, herr]⟩
  · intro h2
    have herr : shipment_received st n rb k2 c =
        Except.error Error.ShipmentDoesNotExist := by
      simp [shipment_received, h2]
    exact ⟨herr, by simp [dispatch, herr]⟩

theorem c5_received_frame_witness :
    ((dispatch st1 (shipment_received st1 2 7 5 coordsB)).shipments 5 =
      some { id := 5, shipped_by := 3, received_by := 7,
             received_at := coordsB, received_on := 2, destination := 99,
             delivered := false }) ∧
    ((dispatch st1 (shipment_received st1 2 7 5 coordsB)).shipments 8 =
      st1.shipments 8) ∧
    (shipment_received st3 6 13 5 coordsA =
      Except.error Error.ShipmentNotInTransit) ∧
    (shipment_received st1 2 7 44 coordsB =
      Except.error Error.ShipmentDoesNotExist) :=
  ⟨((c5_received_frame st1 2 7 5 coordsB ship1 8 44 rfl).1 rfl).2.1,
   ((c5_received_frame st1 2 7 5 coordsB ship1 8 44 rfl).1 rfl).2.2.1
     (by decide),
   ((c5_received_frame st3 6 13 5 coordsA ship5d 8 44 rfl).2.1 rfl).1,
   ((c5_received_frame st1 2 7 5 coordsB ship1 8 44 rfl).2.2 rfl).1⟩

/-- Claim C6: in every reachable state the Delivery Log holds at most 100
entries; for an in-transit shipment, `shipment_delivered` fails with
`DeliveredLogOverflow` exactly when the log already holds 100 entries, and
otherwise appends the id at the end of the log, preserving the earlier
entries and their order. -/
theorem c6_log_bound (st : State) (n rb id : Nat) (c : Coords) (s : Shipment)
    (hr : Reachable st) :
    st.delivered_log.length ≤ 100 ∧
    (st.shipments id = some s → s.delivered = false →
      (st.delivered_log.length = 100 →
        shipment_delivered st n rb id c =
          Except.error Error.DeliveredLogOverflow) ∧
      (st.delivered_log.length ≠ 100 →
        shipment_delivered st n rb id c =
          Except.ok
            { shipments :=
                mapInsert st.shipments id
                  { s with received_by := rb, received_at := c,
                           received_on := n, delivered := true },
              delivered_log := st.delivered_log ++ [id] })) := by
  have hle := reachable_log_le hr
  refine ⟨hle, fun hs hdf => ⟨fun h100 => ?_, fun hne => ?_⟩⟩
  · simp [shipment_delivered, hs, hdf, try_append, h100]
  · have hlt : st.delivered_log.length < 100 := lt_of_le_of_ne hle hne
    simp [shipment_delivered, hs, hdf, try_append, hlt]

theorem c6_log_bound_witness :
    st1.delivered_log.length ≤ 100 ∧
    shipment_delivered st1 3 9 5 coordsB =
      Except.ok
        { shipments :=
            mapInsert st1.shipments 5
              { ship1 with received_by := 9, received_at := coordsB,
                           received_on := 3, delivered := true },
          delivered_log := st1.delivered_log ++ [5] } := by
  have h := c6_log_bound st1 3 9 5 coordsB ship1
    (Relation.ReflTransGen.single (Or.inl ⟨1, 2, 5, 3, coordsA, 99, rfl⟩))
  exact ⟨h.1, (h.2 rfl rfl).2 (by decide)⟩

/-- Claim C7: assuming the host's block number is non-decreasing across
operations, `received_on` is non-decreasing along each timed step, a step
that changes (or creates) the record under an id stamps it with the block
number of that step, and each of the three dispatchables, when it succeeds,
leaves `received_on` equal to the block number at which it ran. -/
theorem c7_received_on (st : State) (n : Nat) (st' : State) (n' id : Nat)
    (s' : Shipment) (stx : State) (m rbx idx sbx : Nat) (cx : Coords)
    (dx : Nat) (t : Shipment)
    (hr : TReachable st n) (hstep : TStep st n st' n')
    (hs' : st'.shipments id = some s') :
    stampOf st id ≤ s'.received_on ∧
    (st.shipments id ≠ some s' → s'.received_on = n') ∧
    (stx.shipments idx = none →
      Option.map Shipment.received_on
        ((dispatch stx (begin_transit stx m rbx idx sbx cx dx)).shipments
          idx) = some m) ∧
    (stx.shipments idx = some t → t.delivered = false →
      Option.map Shipment.received_on
        ((dispatch stx (shipment_received stx m rbx idx cx)).shipments
          idx) = some m) ∧
    (stx.shipments idx = some t → t.delivered = false →
      stx.delivered_log.length < 100 →
      Option.map Shipment.received_on
        ((dispatch stx (shipment_delivered stx m rbx idx cx)).shipments
          idx) = some m) := by
  have hb : StampLe st n := treachable_stampLe hr
  obtain ⟨hn, hcase⟩ := hstep
  have key : stampOf st id ≤ s'.received_on ∧
      (st.shipments id ≠ some s' → s'.received_on = n') := by
    rcases hcase with ⟨rb2, j, sb2, c2, d2, h⟩ | ⟨rb2, j, c2, h⟩ |
      ⟨rb2, j, c2, h⟩ | rfl
    · obtain ⟨hnone, rfl⟩ := begin_transit_ok h
      simp only [mapInsert] at hs'
      by_cases hij : id = j
      · rw [if_pos hij] at hs'
        injection hs' with he
        have hsn : st.shipments id = none := by rw [hij]; exact hnone
        constructor
        · rw [← he]
          simp [stampOf, hsn, Shipment.new]
        · intro _; rw [← he]; rfl
      · rw [if_neg hij] at hs'
        exact ⟨by simp [stampOf, hs'], fun hne => absurd hs' hne⟩
    · obtain ⟨u, hu, hud, rfl⟩ := shipment_received_ok h
      simp only [mapInsert] at hs'
      by_cases hij : id = j
      · rw [if_pos hij] at hs'
        injection hs' with he
        have hsu : st.shipments id = some u := by rw [hij]; exact hu
        have hs'on : s'.received_on = n' := by rw [← he]
        constructor
        · rw [hs'on]
          have h1 : stampOf st id = u.received_on := by simp [stampOf, hsu]
          rw [h1]
          exact le_trans (hb id u hsu) hn
        · intro _; exact hs'on
      · rw [if_neg hij] at hs'
        exact ⟨by simp [stampOf, hs'], fun hne => absurd hs' hne⟩
    · obtain ⟨u, hu, hud, hlen, rfl⟩ := shipment_delivered_ok h
      simp only [mapInsert] at hs'
      by_cases hij : id = j
      · rw [if_pos hij] at hs'
        injection hs' with he
        have hsu : st.shipments id = some u := by rw [hij]; exact hu
        have hs'on : s'.received_on = n' := by rw [← he]
        constructor
        · rw [hs'on]
          have h1 : stampOf st id = u.received_on := by simp [stampOf, hsu]
          rw [h1]
          exact le_trans (hb id u hsu) hn
        · intro _; exact hs'on
      · rw [if_neg hij] at hs'
        exact ⟨by simp [stampOf, hs'], fun hne => absurd hs' hne⟩
    · rw [drain_and_prune_shipments] at hs'
      by_cases hin : id ∈ st.delivered_log
      · rw [if_pos hin] at hs'; cases hs'
      · rw [if_neg hin] at hs'
        exact ⟨by simp [stampOf, hs'], fun hne => absurd hs' hne⟩
  refine ⟨key.1, key.2, ?_, ?_, ?_⟩
  · intro hnone
    have hok : begin_transit stx m rbx idx sbx cx dx =
        Except.ok
          { stx with
            shipments :=
              mapInsert stx.shipments idx
                (Shipment.new idx sbx rbx cx dx m) } := by
      unfold begin_transit; rw [hnone]; simp
    simp [dispatch, hok, mapInsert, Shipment.new]
  · intro ht htd
    simp [shipment_received, ht, htd, dispatch, mapInsert]
  · intro ht htd hlen
    simp [shipment_delivered, ht, htd, try_append, hlen, dispatch, mapInsert]

theorem c7_received_on_witness :
    stampOf st1 5 ≤ ship2.received_on ∧
    ship2.received_on = 2 ∧
    Option.map Shipment.received_on
      ((dispatch st1 (begin_transit st1 2 7 12 3 coordsB 99)).shipments 12) =
      some 2 ∧
    Option.map Shipment.received_on
      ((dispatch st1 (shipment_received st1 2 7 5 coordsB)).shipments 5) =
      some 2 ∧
    Option.map Shipment.received_on
      ((dispatch st1 (shipment_delivered st1 2 7 5 coordsB)).shipments 5) =
      some 2 := by
  have hr : TReachable st1 1 :=
    ⟨0, Relation.ReflTransGen.single
      ⟨Nat.zero_le 1, Or.inl ⟨2, 5, 3, coordsA, 99, rfl⟩⟩⟩
  have hstep : TStep st1 1 st2 2 :=
    ⟨by decide, Or.inr (Or.inl ⟨7, 5, coordsB, rfl⟩)⟩
  have h := c7_received_on st1 1 st2 2 5 ship2 st1 2 7 5 3 coordsB 99 ship1
    hr hstep rfl
  have h2 := c7_received_on st1 1 st2 2 5 ship2 st1 2 7 12 3 coordsB 99 ship1
    hr hstep rfl
  exact ⟨h.1, h.2.1 (by decide), h2.2.2.1 rfl, h.2.2.2.1 rfl rfl,
    h.2.2.2.2 rfl rfl (by decide)⟩

/-- Claim C8 (implicit frame of the prune hook): a prune tick leaves every
ledger entry whose identifier is not in the Delivery Log unchanged. -/
theorem c8_prune_frame (st : State) (id : Nat)
    (hid : id ∉ st.delivered_log) :
    (drain_and_prune st).shipments id = st.shipments id := by
  rw [drain_and_prune_shipments, if_neg hid]

theorem c8_prune_frame_witness :
    (drain_and_prune st3).shipments 6 = st3.shipments 6 :=
  c8_prune_frame st3 6 (by decide)

/-- Claim C9 (implicit): `begin_transit` binds only `received_by` to the
authenticated caller; `shipped_by` is stored verbatim from the call's
argument, with no check relating it to the caller. -/
theorem c9_shipped_by_verbatim (st : State) (n rb id v : Nat) (c : Coords)
    (d : Nat) (h : st.shipments id = none) :
    isOk (begin_transit st n rb id v c d) = true ∧
    Option.map Shipment.shipped_by
      ((dispatch st (begin_transit st n rb id v c d)).shipments id) =
      some v ∧
    Option.map Shipment.received_by
      ((dispatch st (begin_transit st n rb id v c d)).shipments id) =
      some rb := by
  have hok : begin_transit st n rb id v c d =
      Except.ok
        { st with
          shipments :=
            mapInsert st.shipments id (Shipment.new id v rb c d n) } := by
    unfold begin_transit; rw [h]; simp
  refine ⟨by simp [isOk, hok], ?_, ?_⟩
  · simp [dispatch, hok, mapInsert, Shipment.new]
  · simp [dispatch, hok, mapInsert, Shipment.new]

theorem c9_shipped_by_verbatim_witness :
    isOk (begin_transit emptyState 1 2 5 42 coordsA 99) = true ∧
    Option.map Shipment.shipped_by
      ((dispatch emptyState
          (begin_transit emptyState 1 2 5 42 coordsA 99)).shipments 5) =
      some 42 ∧
    Option.map Shipment.received_by
      ((dispatch emptyState
          (begin_transit emptyState 1 2 5 42 coordsA 99)).shipments 5) =
      some 2 :=
  c9_shipped_by_verbatim emptyState 1 2 5 42 coordsA 99 rfl

/-- Claim C10 (implicit cross-store invariant): in every reachable state a
ledger entry with `delivered = true` has its identifier in the Delivery Log,
and consequently a prune tick removes every delivered record — whatever
survives it is still in transit. -/
theorem c10_delivered_in_log (st : State) (id k : Nat) (s t : Shipment)
    (hr : Reachable st) :
    (st.shipments id = some s → s.delivered = true →
      id ∈ st.delivered_log) ∧
    ((drain_and_prune st).shipments k = some t → t.delivered = false) := by
  have hinv := reachable_delivInLog hr
  refine ⟨hinv id s, ?_⟩
  intro hk
  rw [drain_and_prune_shipments] at hk
  by_cases hkin : k ∈ st.delivered_log
  · rw [if_pos hkin] at hk; cases hk
  · rw [if_neg hkin] at hk
    cases hdel : t.delivered with
    | false => rfl
    | true => exact absurd (hinv k t hk hdel) hkin

theorem c10_delivered_in_log_witness :
    (5 ∈ st3.delivered_log) ∧ ship6.delivered = false := by
  have s1 : Step emptyState st1 := Or.inl ⟨1, 2, 5, 3, coordsA, 99, rfl⟩
  have s2 : Step st1 st1b := Or.inl ⟨1, 2, 6, 4, coordsA, 88, rfl⟩
  have s3 : Step st1b st3 := Or.inr (Or.inr (Or.inl ⟨3, 9, 5, coordsB, rfl⟩))
  have hr3 : Reachable st3 :=
    Relation.ReflTransGen.tail
      (Relation.ReflTransGen.tail (Relation.ReflTransGen.single s1) s2) s3
  have h := c10_delivered_in_log st3 5 6 ship5d ship6 hr3
  exact ⟨h.1 rfl rfl, h.2 rfl⟩

end Logistics
